import Mathlib

/-!
# gorm-newrelic-telemetry-plugin: the telemetry adapter

A shallow embedding of `telemetry/newrelic.go`.

* Go strings are Lean strings; `interface{}` values bound to a statement are an
  arbitrary type `α` together with their `%v` rendering `sprintV : α → String`.
* The ORM statement (`*gorm.DB`) is a record holding the context, the settings
  store (`db.Set` / `db.Get`), the table name, the SQL text and the bound values.
* The APM client is observed through the ordered list of calls made on it
  (`Event`): starting a segment, ending a segment, ending a transaction.
* A failed type assertion is a Go runtime panic; it is the `Except.error` branch.
* The ORM hook registry is a parameter of the installers: any state type with
  any `Register` function returning an optional error.
* The order in which the ORM calls the hooks is read off a model of its
  registry (`ormRegister`, `runChain`): one chain of named entries per operation
  kind, a registered hook taking the slot right before or right after its
  anchor. The ORM's own callbacks of a chain and what they do to the statement
  are parameters.
-/

namespace Telemetry

/-! ## Library functions used by the file -/

/-- The fragment of `fmt.Sprintf(pattern, value)` for one string operand and a
pattern in which every `%` starts a `%s` verb (the three patterns of the file
are of that form): the first `%s` is replaced by the operand, a later one has
no operand left, and an operand that no verb consumed is reported at the end. -/
def sprintfS : List Char → Option String → List Char
  | [], none => []
  | [], some v => "%!(EXTRA string=".data ++ v.data ++ [')']
  | [c], arg => c :: sprintfS [] arg
  | c :: d :: rest, arg =>
    if c = '%' ∧ d = 's' then
      match arg with
      | some v => v.data ++ sprintfS rest none
      | none => "%!s(MISSING)".data ++ sprintfS rest none
    else c :: sprintfS (d :: rest) arg

/-- Decimal rendering `strconv.Itoa` of a non-negative integer (the file only
calls it on `i+1` for a slice index `i`). -/
def Itoa (n : Nat) : String := Nat.repr n

/-- Lower-casing `strings.ToLower`, on ASCII letters (every operation label
of the file is an ASCII word). -/
def ToLower (s : String) : String := String.mk (s.data.map Char.toLower)

/-! ## Constants and configuration -/

def callbackName : String := "gorm:%s"

def registerName : String := "telemetrynr:%s"

def newrelicStartKey : String := "newrelicStartTime:%s"

/-- The telemetry target: `newrelic.DatastoreProduct` is a string type. -/
structure config where
  name : String
  address : String
  product : String
  deriving DecidableEq, Repr

structure NrTracer where
  cfg : config
  deriving DecidableEq, Repr

def NewNrTracer (databaseName databaseAddress product : String) : NrTracer :=
  { cfg := { name := databaseName, address := databaseAddress, product := product } }

def name (pattern value : String) : String :=
  String.mk (sprintfS pattern.data (some value))

def NrTracer.Name (_n : NrTracer) : String := "newrelic-telemetry-plugin"

/-! ## The APM client and the ORM statement -/

/-- Handle of an APM transaction (`*newrelic.Transaction`). -/
structure Transaction where
  id : Nat
  deriving DecidableEq, Repr

/-- The start marker `newrelic.SegmentStartTime`, an opaque token. -/
structure SegmentStartTime where
  stamp : Nat
  deriving DecidableEq, Repr

/-- A Go map from strings to strings, as its list of entries. -/
abbrev GoMap := List (String × String)

/-- Map assignment `m[k] = v`: an existing entry for `k` is replaced. -/
def GoMap.assign (m : GoMap) (k v : String) : GoMap :=
  m.filter (fun p => p.1 != k) ++ [(k, v)]

structure DatastoreSegment where
  StartTime : SegmentStartTime
  Product : String
  Operation : String
  Collection : String
  ParameterizedQuery : String
  QueryParameters : GoMap
  DatabaseName : String
  Host : String
  deriving DecidableEq, Repr

/-- The calls made on the APM client. -/
inductive Event where
  | startSegment (txn : Transaction) (start : SegmentStartTime)
  | endSegment (segment : DatastoreSegment)
  | endTransaction (txn : Transaction)
  deriving DecidableEq, Repr

/-- The ordered record of calls made on the APM client. -/
abbrev Trace := List Event

/-- A value held in the statement's settings store (an `interface{}`): a start
marker, or a value of any other dynamic type. -/
inductive Setting (α : Type) where
  | startTime (start : SegmentStartTime)
  | other (value : α)
  deriving DecidableEq, Repr

/-- The part of `gorm.Statement` the file reads and writes. `Context` is what
`newrelic.FromContext(db.Statement.Context)` finds on the context. -/
structure Statement (α : Type) where
  Context : Option Transaction
  Settings : List (String × Setting α)
  Table : String
  SQL : String
  Vars : List α
  deriving DecidableEq, Repr

structure DB (α : Type) where
  Statement : Statement α
  deriving DecidableEq, Repr

/-- The `db.Get(key)` lookup in the statement's settings. -/
def DB.Get {α : Type} (db : DB α) (key : String) : Option (Setting α) :=
  db.Statement.Settings.lookup key

/-- The `db.Set(key, value)` store into the statement's settings (inside a
callback the statement is updated in place). -/
def DB.Set {α : Type} (db : DB α) (key : String) (value : Setting α) : DB α :=
  { db with Statement := { db.Statement with
      Settings := (key, value) :: db.Statement.Settings.filter (fun p => p.1 != key) } }

/-- The `transaction.StartSegmentNow()` call: the marker is the logical time of
the call, and the call is recorded. -/
def StartSegmentNow (txn : Transaction) (apm : Trace) : SegmentStartTime × Trace :=
  (⟨apm.length⟩, apm ++ [Event.startSegment txn ⟨apm.length⟩])

/-- The runtime panic of a failed type assertion `startTime.(newrelic.SegmentStartTime)`. -/
def assertionPanic : String :=
  "interface conversion: interface \x7b\x7d is not newrelic.SegmentStartTime"

/-! ## Hooks -/

/-- The loop `for i, v := range vars` of `parseVars`, from index `i` on. -/
def parseVarsLoop {α : Type} (sprintV : α → String) : List α → Nat → GoMap → GoMap
  | [], _, queryParameters => queryParameters
  | v :: vs, i, queryParameters =>
    parseVarsLoop sprintV vs (i + 1) (queryParameters.assign (Itoa (i + 1)) (sprintV v))

def parseVars {α : Type} (sprintV : α → String) (vars : List α) : GoMap :=
  parseVarsLoop sprintV vars 0 []

/-- The segment constructor `createSegment`: `none` is the nil segment; a
stored value that is not a start marker makes the type assertion panic. -/
def createSegment {α : Type} (sprintV : α → String) (db : DB α) (operation : String)
    (cfg : config) : Except String (Option DatastoreSegment) :=
  match db.Get (name newrelicStartKey operation) with
  | none => .ok none
  | some (Setting.startTime startTime) =>
    .ok (some
      { StartTime := startTime
        Product := cfg.product
        Operation := ToLower operation
        Collection := db.Statement.Table
        ParameterizedQuery := db.Statement.SQL
        QueryParameters := parseVars sprintV db.Statement.Vars
        DatabaseName := cfg.name
        Host := cfg.address })
  | some (Setting.other _) =>
    .error assertionPanic

/-- The `after(operation, cfg)` hook, run on a statement and the APM record. -/
def after {α : Type} (sprintV : α → String) (operation : String) (cfg : config)
    (w : DB α × Trace) : Except String (DB α × Trace) :=
  match createSegment sprintV w.1 operation cfg with
  | .error e => .error e
  | .ok segment =>
    let apm1 : Trace :=
      match segment with
      | some seg => w.2 ++ [Event.endSegment seg]
      | none => w.2
    let apm2 : Trace :=
      match w.1.Statement.Context with
      | some transaction => apm1 ++ [Event.endTransaction transaction]
      | none => apm1
    .ok (w.1, apm2)

/-- The `before(operation)` hook, run on a statement and the APM record. -/
def before {α : Type} (operation : String) (w : DB α × Trace) : DB α × Trace :=
  let segmentKey := name newrelicStartKey operation
  match w.1.Statement.Context with
  | some transaction =>
    let r := StartSegmentNow transaction w.2
    (w.1.Set segmentKey (Setting.startTime r.1), r.2)
  | none => w

/-! ## Registration -/

/-- The six callback chains of the ORM (`db.Callback().Create()`, ...). -/
inductive Chain where
  | Create | Query | Row | Raw | Update | Delete
  deriving DecidableEq, Repr

/-- Placement of a callback relative to a named callback of the chain. -/
inductive Position where
  | Before | After
  deriving DecidableEq, Repr

/-- The function value handed to `Register`: `before(operation)` or
`after(operation, cfg)`. -/
inductive Hook where
  | before (operation : String)
  | after (operation : String) (cfg : config)
  deriving DecidableEq, Repr

/-- One call `db.Callback().<chain>().<position>(anchor).Register(name, hook)`. -/
structure Registration where
  chain : Chain
  position : Position
  anchor : String
  name : String
  hook : Hook
  deriving DecidableEq, Repr

/-- What a registered hook does when the ORM calls it. -/
def Hook.run {α : Type} (sprintV : α → String) :
    Hook → DB α × Trace → Except String (DB α × Trace)
  | Hook.before operation, w => .ok (Telemetry.before operation w)
  | Hook.after operation cfg, w => Telemetry.after sprintV operation cfg w

/-- The ORM calling a sequence of hooks one after the other on a statement; a
panic stops the sequence. -/
def runHooks {α : Type} (sprintV : α → String) :
    List Hook → DB α × Trace → Except String (DB α × Trace)
  | [], w => .ok w
  | h :: hs, w =>
    match h.run sprintV w with
    | .error e => .error e
    | .ok w1 => runHooks sprintV hs w1

section Register

variable {ρ : Type} (Register : Registration → ρ → ρ × Option String)

def NrTracer.registerCreateTelemetry (n : NrTracer) (db : ρ) : ρ :=
  let callback := name callbackName "create"
  let db := (Register ⟨Chain.Create, Position.Before, callback,
    name registerName "before_create", Hook.before "INSERT"⟩ db).1
  let db := (Register ⟨Chain.Create, Position.After, callback,
    name registerName "after_create", Hook.after "INSERT" n.cfg⟩ db).1
  let db := (Register ⟨Chain.Create, Position.Before, name callbackName "begin_transaction",
    name registerName "before_transaction_create", Hook.before "TRANSACTION"⟩ db).1
  (Register ⟨Chain.Create, Position.After, name callbackName "commit_or_rollback_transaction",
    name registerName "after_transaction_create", Hook.after "TRANSACTION" n.cfg⟩ db).1

def NrTracer.registerQueryTelemetry (n : NrTracer) (db : ρ) : ρ :=
  let callback := name callbackName "query"
  let db := (Register ⟨Chain.Query, Position.Before, callback,
    name registerName "before_query", Hook.before "SELECT"⟩ db).1
  (Register ⟨Chain.Query, Position.After, callback,
    name registerName "after_query", Hook.after "SELECT" n.cfg⟩ db).1

def NrTracer.registerRowTelemetry (n : NrTracer) (db : ρ) : ρ :=
  let callback := name callbackName "row"
  let db := (Register ⟨Chain.Row, Position.Before, callback,
    name registerName "before_row", Hook.before "ROW"⟩ db).1
  (Register ⟨Chain.Row, Position.After, callback,
    name registerName "after_row", Hook.after "ROW" n.cfg⟩ db).1

def NrTracer.registerRawTelemetry (n : NrTracer) (db : ρ) : ρ :=
  let callback := name callbackName "raw"
  let db := (Register ⟨Chain.Raw, Position.Before, callback,
    name registerName "before_raw", Hook.before "RAW"⟩ db).1
  (Register ⟨Chain.Raw, Position.After, callback,
    name registerName "after_raw", Hook.after "RAW" n.cfg⟩ db).1

def NrTracer.registerUpdateTelemetry (n : NrTracer) (db : ρ) : ρ :=
  let callback := name callbackName "update"
  let db := (Register ⟨Chain.Update, Position.Before, callback,
    name registerName "before_update", Hook.before "UPDATE"⟩ db).1
  let db := (Register ⟨Chain.Update, Position.After, callback,
    name registerName "after_update", Hook.after "UPDATE" n.cfg⟩ db).1
  let db := (Register ⟨Chain.Update, Position.Before, name callbackName "begin_transaction",
    name registerName "before_transaction_update", Hook.before "TRANSACTION"⟩ db).1
  (Register ⟨Chain.Update, Position.After, name callbackName "commit_or_rollback_transaction",
    name registerName "after_transaction_update", Hook.after "TRANSACTION" n.cfg⟩ db).1

def NrTracer.registerDeleteTelemetry (n : NrTracer) (db : ρ) : ρ :=
  let callback := name callbackName "delete"
  let db := (Register ⟨Chain.Delete, Position.Before, callback,
    name registerName "before_delete", Hook.before "DELETE"⟩ db).1
  let db := (Register ⟨Chain.Delete, Position.After, callback,
    name registerName "after_delete", Hook.after "DELETE" n.cfg⟩ db).1
  let db := (Register ⟨Chain.Delete, Position.Before, name callbackName "begin_transaction",
    name registerName "before_transaction_update", Hook.before "TRANSACTION"⟩ db).1
  (Register ⟨Chain.Delete, Position.After, name callbackName "commit_or_rollback_transaction",
    name registerName "after_transaction_delete", Hook.after "TRANSACTION" n.cfg⟩ db).1

/-- The plugin entry point `Initialize`: the registry after the six installers
and the returned error (`none` is the nil error). Every result of `Register`
is discarded. -/
def NrTracer.Initialize (n : NrTracer) (db : ρ) : ρ × Option String :=
  let db := n.registerCreateTelemetry Register db
  let db := n.registerQueryTelemetry Register db
  let db := n.registerRowTelemetry Register db
  let db := n.registerRawTelemetry Register db
  let db := n.registerUpdateTelemetry Register db
  let db := n.registerDeleteTelemetry Register db
  (db, none)

end Register

/-- A registry that records every registration attempt and accepts it. -/
def recordAccept (r : Registration) (log : List Registration) :
    List Registration × Option String :=
  (log ++ [r], none)

/-- A registry that records every registration attempt and rejects it. -/
def recordReject (r : Registration) (log : List Registration) :
    List Registration × Option String :=
  (log ++ [r], some ("duplicated callback " ++ r.name))

/-- The registration attempts `Initialize` makes, in order. -/
def registrations (n : NrTracer) : List Registration :=
  (n.Initialize recordAccept []).1

/-- The names under which `Initialize` registers its callbacks, in order. -/
def registeredNames (n : NrTracer) : List String :=
  (registrations n).map (fun r => r.name)

/-! ## The ORM's callback chains -/

/-- An entry of a callback chain: one of the ORM's own callbacks, known by its
name, or a hook registered by a plugin. -/
inductive Slot where
  | builtin (name : String)
  | hook (r : Registration)
  deriving DecidableEq, Repr

/-- The name under which an entry is known on its chain. -/
def Slot.name : Slot → String
  | Slot.builtin s => s
  | Slot.hook r => r.name

/-- Modelled from the spec: the ORM's hook registry is not part of the
repository. `Before(anchor)`: the new entry goes right before the entry named
`anchor` (at the end of the chain when no entry has that name). -/
def insertBefore (anchor : String) (s : Slot) : List Slot → List Slot
  | [] => [s]
  | x :: xs => if x.name = anchor then s :: x :: xs else x :: insertBefore anchor s xs

/-- Modelled from the spec: the ORM's hook registry is not part of the
repository. `After(anchor)`: the new entry goes right after the entry named
`anchor` (at the end of the chain when no entry has that name). -/
def insertAfter (anchor : String) (s : Slot) : List Slot → List Slot
  | [] => [s]
  | x :: xs => if x.name = anchor then x :: s :: xs else x :: insertAfter anchor s xs

/-- Modelled from the spec: the ORM's hook registry is not part of the
repository. Registration on one chain is by name: when the chain already has
an entry under the name the registration is skipped and an error reported,
otherwise the hook takes the slot before or after its anchor. -/
def placeOn (r : Registration) (slots : List Slot) : List Slot × Option String :=
  if slots.any (fun s => s.name == r.name) then
    (slots, some ("duplicated callback " ++ r.name))
  else
    match r.position with
    | Position.Before => (insertBefore r.anchor (Slot.hook r) slots, none)
    | Position.After => (insertAfter r.anchor (Slot.hook r) slots, none)

/-- The ORM's registry: one ordered chain of entries per operation kind. -/
abbrev Registry := Chain → List Slot

/-- Modelled from the spec: the ORM's hook registry is not part of the
repository. `Register` acts on the chain the registration names and on no
other. -/
def ormRegister (r : Registration) (reg : Registry) : Registry × Option String :=
  (fun c => if c = r.chain then (placeOn r (reg c)).1 else reg c, (placeOn r (reg r.chain)).2)

/-- The registry before any plugin is installed: on each chain the ORM's own
callbacks `stages`, in their order. -/
def builtinChains (stages : Chain → List String) : Registry :=
  fun c => (stages c).map Slot.builtin

/-- The hooks of a chain in the order in which the ORM calls them. -/
def firedHooks : List Slot → List Hook
  | [] => []
  | Slot.builtin _ :: rest => firedHooks rest
  | Slot.hook r :: rest => r.hook :: firedHooks rest

/-- Modelled from the spec: the ORM's dispatch is not part of the repository.
The ORM runs the entries of a chain in order on one statement: one of its own
callbacks acts on the statement through `effect`, a registered hook runs as
`Hook.run`; a panic stops the chain. -/
def runChain {α : Type} (sprintV : α → String) (effect : String → DB α → DB α) :
    List Slot → DB α × Trace → Except String (DB α × Trace)
  | [], w => .ok w
  | Slot.builtin s :: rest, w => runChain sprintV effect rest (effect s w.1, w.2)
  | Slot.hook r :: rest, w =>
    match r.hook.run sprintV w with
    | .error e => .error e
    | .ok w1 => runChain sprintV effect rest w1

/-- The ORM's own callbacks `stages` acting on a statement one after the other. -/
def runStages {α : Type} (effect : String → DB α → DB α) : List String → DB α → DB α
  | [], db => db
  | s :: rest, db => runStages effect rest (effect s db)

/-- The write chain of an operation kind: the chain, the kind's name in the
ORM's callback names, and the operation label of its hooks. -/
def writeKinds : List (Chain × String × String) :=
  [(Chain.Create, "create", "INSERT"), (Chain.Update, "update", "UPDATE"),
   (Chain.Delete, "delete", "DELETE")]

/-- Example chains: a write chain begins a transaction, runs the kind's own
callback between two more callbacks, and commits or rolls back; a read chain
has the kind's own callback only. -/
def exampleStages : Chain → List String
  | Chain.Create => ["gorm:begin_transaction", "gorm:before_create", "gorm:create",
      "gorm:after_create", "gorm:commit_or_rollback_transaction"]
  | Chain.Update => ["gorm:begin_transaction", "gorm:before_update", "gorm:update",
      "gorm:after_update", "gorm:commit_or_rollback_transaction"]
  | Chain.Delete => ["gorm:begin_transaction", "gorm:before_delete", "gorm:delete",
      "gorm:after_delete", "gorm:commit_or_rollback_transaction"]
  | Chain.Query => ["gorm:query"]
  | Chain.Row => ["gorm:row"]
  | Chain.Raw => ["gorm:raw"]

/-- Example effect of the ORM's own callbacks: `gorm:create` builds the SQL
text and the bound values of the statement, the others leave it as it is. -/
def exampleEffect (stage : String) (db : DB String) : DB String :=
  if stage = "gorm:create" then
    { db with Statement := { db.Statement with
        SQL := "INSERT INTO teste (name) VALUES (?)", Vars := ["x"] } }
  else db

/-- A statement on table `teste` with an APM transaction on its context, before
the ORM has built its SQL. -/
def stmtFresh : DB String :=
  { Statement := { Context := some ⟨7⟩, Settings := [], Table := "teste", SQL := "", Vars := [] } }

/-- The tracer built by the repository's tests. -/
def testTracer : NrTracer := NewNrTracer "testdb" "local" "SQLite"

/-! ## Proof-side definitions -/

/-- Value of a decimal digit character. -/
def digitVal (c : Char) : Nat := c.toNat - 48

/-- Value of a string of decimal digits read after the number `acc`. -/
def decimalVal (acc : Nat) (ds : List Char) : Nat :=
  ds.foldl (fun a c => 10 * a + digitVal c) acc

/-- The entries `parseVars` produces for the values `vs` met from index `i` on. -/
def entriesFrom {α : Type} (sprintV : α → String) : List α → Nat → GoMap
  | [], _ => []
  | v :: vs, i => (Itoa (i + 1), sprintV v) :: entriesFrom sprintV vs (i + 1)

/-- What `after` appends for the transaction found on the context. -/
def endOfTransaction (ctx : Option Transaction) : Trace :=
  match ctx with
  | some transaction => [Event.endTransaction transaction]
  | none => []

/-- The descriptor `createSegment` builds from the start marker `start`. -/
def segmentOf {α : Type} (sprintV : α → String) (db : DB α) (operation : String)
    (cfg : config) (start : SegmentStartTime) : DatastoreSegment :=
  { StartTime := start
    Product := cfg.product
    Operation := ToLower operation
    Collection := db.Statement.Table
    ParameterizedQuery := db.Statement.SQL
    QueryParameters := parseVars sprintV db.Statement.Vars
    DatabaseName := cfg.name
    Host := cfg.address }

/-- The configuration used by the repository's tests. -/
def testCfg : config := (NewNrTracer "testdb" "local" "SQLite").cfg

/-- A statement on table `teste` with an APM transaction on its context and an
empty settings store. -/
def stmtWithTxn : DB String :=
  { Statement :=
      { Context := some ⟨7⟩
        Settings := []
        Table := "teste"
        SQL := "INSERT INTO teste (name) VALUES (?)"
        Vars := ["x"] } }

/-- A statement on table `teste` without an APM transaction on its context and
with an empty settings store. -/
def stmtNoTxn : DB String :=
  { Statement :=
      { Context := none
        Settings := []
        Table := "teste"
        SQL := "SELECT * FROM teste WHERE id = ?"
        Vars := ["1"] } }

/-- A statement without an APM transaction whose store holds a start marker
for the label INSERT. -/
def stmtWithMarker : DB String :=
  { Statement :=
      { Context := none
        Settings := [("newrelicStartTime:INSERT", Setting.startTime ⟨3⟩)]
        Table := "teste"
        SQL := "INSERT INTO teste (name) VALUES (?)"
        Vars := ["x"] } }

/-! ## Names and keys -/

theorem name_newrelicStartKey (v : String) :
    name newrelicStartKey v = "newrelicStartTime:" ++ v := by
  apply String.ext
  simp [name, newrelicStartKey, sprintfS]

theorem name_registerName (v : String) : name registerName v = "telemetrynr:" ++ v := by
  apply String.ext
  simp [name, registerName, sprintfS]

theorem name_callbackName (v : String) : name callbackName v = "gorm:" ++ v := by
  apply String.ext
  simp [name, callbackName, sprintfS]

theorem startKey_injective {a b : String}
    (h : "newrelicStartTime:" ++ a = "newrelicStartTime:" ++ b) : a = b := by
  have h1 := congrArg String.data h
  simp only [String.data_append] at h1
  exact String.ext (List.append_cancel_left h1)

/-! ## The settings store -/

theorem lookup_filter_ne {β : Type} (k k2 : String) (h : k2 ≠ k) (l : List (String × β)) :
    (l.filter (fun p => p.1 != k)).lookup k2 = l.lookup k2 := by
  induction l with
  | nil => rfl
  | cons p l ih =>
    obtain ⟨a, b⟩ := p
    by_cases hak : a = k
    · subst hak
      have hne : (k2 == a) = false := by simpa using h
      simp [List.filter, List.lookup, hne, ih]
    · have hne : (a != k) = true := by simpa using hak
      simp only [List.filter, hne, List.lookup]
      rw [ih]

theorem Get_Set_same {α : Type} (db : DB α) (k : String) (v : Setting α) :
    (db.Set k v).Get k = some v := by
  simp [DB.Get, DB.Set, List.lookup]

theorem Get_Set_ne {α : Type} (db : DB α) (k k2 : String) (v : Setting α) (h : k2 ≠ k) :
    (db.Set k v).Get k2 = db.Get k2 := by
  have hne : (k2 == k) = false := by simpa using h
  simp only [DB.Get, DB.Set, List.lookup, hne]
  exact lookup_filter_ne k k2 h _

/-! ## Decimal rendering -/

theorem digitVal_digitChar (k : Nat) (h : k < 10) : digitVal (Nat.digitChar k) = k := by
  interval_cases k <;> rfl

theorem decimalVal_toDigitsCore (fuel : Nat) :
    ∀ (n : Nat) (ds : List Char), n < fuel →
      decimalVal 0 (Nat.toDigitsCore 10 fuel n ds) = decimalVal n ds := by
  induction fuel with
  | zero => intro n ds h; omega
  | succ fuel ih =>
    intro n ds h
    unfold Nat.toDigitsCore
    simp only
    split
    · rename_i h0
      have hn : n < 10 := by omega
      simp [decimalVal, List.foldl, digitVal_digitChar n hn, Nat.mod_eq_of_lt hn]
    · rename_i h0
      rw [ih (n / 10) _ (by omega)]
      simp only [decimalVal, List.foldl, digitVal_digitChar (n % 10) (Nat.mod_lt _ (by decide))]
      congr 1
      omega

theorem Itoa_injective {a b : Nat} (h : Itoa a = Itoa b) : a = b := by
  have h1 := congrArg (fun s => decimalVal 0 s.data) h
  simp only [Itoa, Nat.repr, Nat.toDigits, List.asString] at h1
  rw [decimalVal_toDigitsCore _ _ _ (Nat.lt_succ_self a),
    decimalVal_toDigitsCore _ _ _ (Nat.lt_succ_self b)] at h1
  simpa [decimalVal] using h1

/-! ## Parameter serialization -/

theorem parseVarsLoop_eq {α : Type} (sprintV : α → String) (vs : List α) :
    ∀ (i : Nat) (m : GoMap), (∀ p ∈ m, ∀ j, i ≤ j → p.1 ≠ Itoa (j + 1)) →
      parseVarsLoop sprintV vs i m = m ++ entriesFrom sprintV vs i := by
  induction vs with
  | nil => intro i m _; simp [parseVarsLoop, entriesFrom]
  | cons v vs ih =>
    intro i m hm
    have hfil : m.filter (fun p => p.1 != Itoa (i + 1)) = m := by
      apply List.filter_eq_self.mpr
      intro p hp
      simpa using hm p hp i (Nat.le_refl i)
    have hinv : ∀ p ∈ m ++ [(Itoa (i + 1), sprintV v)], ∀ j, i + 1 ≤ j → p.1 ≠ Itoa (j + 1) := by
      intro p hp j hj
      rcases List.mem_append.mp hp with hp | hp
      · exact hm p hp j (by omega)
      · simp only [List.mem_singleton] at hp
        subst hp
        intro h
        have := Itoa_injective h
        omega
    simp only [parseVarsLoop, GoMap.assign, hfil, entriesFrom]
    rw [ih (i + 1) _ hinv]
    simp

theorem parseVars_eq {α : Type} (sprintV : α → String) (vars : List α) :
    parseVars sprintV vars = entriesFrom sprintV vars 0 := by
  unfold parseVars
  rw [parseVarsLoop_eq sprintV vars 0 [] (by simp)]
  simp

theorem entriesFrom_length {α : Type} (sprintV : α → String) (vs : List α) :
    ∀ i, (entriesFrom sprintV vs i).length = vs.length := by
  induction vs with
  | nil => intro i; rfl
  | cons v vs ih => intro i; simp [entriesFrom, ih]

theorem entriesFrom_keys {α : Type} (sprintV : α → String) (vs : List α) :
    ∀ i, (entriesFrom sprintV vs i).map Prod.fst =
      (List.range' i vs.length).map (fun j => Itoa (j + 1)) := by
  induction vs with
  | nil => intro i; rfl
  | cons v vs ih => intro i; simp [entriesFrom, ih, List.range'_succ]

theorem entriesFrom_lookup {α : Type} (sprintV : α → String) (vs : List α) :
    ∀ i k, (entriesFrom sprintV vs i).lookup (Itoa (i + k + 1)) = (vs.get? k).map sprintV := by
  induction vs with
  | nil => intro i k; rfl
  | cons v vs ih =>
    intro i k
    cases k with
    | zero => simp [entriesFrom, List.lookup]
    | succ k =>
      have hne : (Itoa (i + (k + 1) + 1) == Itoa (i + 1)) = false := by
        simp only [beq_eq_false_iff_ne, ne_eq]
        intro h
        have := Itoa_injective h
        omega
      simp only [entriesFrom, List.lookup, hne, List.get?]
      have := ih (i + 1) k
      rw [show i + 1 + k + 1 = i + (k + 1) + 1 by omega] at this
      exact this

/-! ## The hooks -/

theorem createSegment_of_marker {α : Type} (sprintV : α → String) (db : DB α)
    (operation : String) (cfg : config) (m : SegmentStartTime)
    (h : db.Get ("newrelicStartTime:" ++ operation) = some (Setting.startTime m)) :
    createSegment sprintV db operation cfg = .ok (some (segmentOf sprintV db operation cfg m)) := by
  simp only [createSegment, name_newrelicStartKey, h, segmentOf]

theorem createSegment_of_none {α : Type} (sprintV : α → String) (db : DB α)
    (operation : String) (cfg : config)
    (h : db.Get ("newrelicStartTime:" ++ operation) = none) :
    createSegment sprintV db operation cfg = .ok none := by
  simp only [createSegment, name_newrelicStartKey, h]

theorem after_of_marker {α : Type} (sprintV : α → String) (db : DB α) (apm : Trace)
    (operation : String) (cfg : config) (m : SegmentStartTime)
    (h : db.Get ("newrelicStartTime:" ++ operation) = some (Setting.startTime m)) :
    after sprintV operation cfg (db, apm) =
      .ok (db, apm ++ [Event.endSegment (segmentOf sprintV db operation cfg m)] ++
        endOfTransaction db.Statement.Context) := by
  simp only [after, createSegment_of_marker sprintV db operation cfg m h, endOfTransaction]
  cases db.Statement.Context <;> simp

theorem after_of_none {α : Type} (sprintV : α → String) (db : DB α) (apm : Trace)
    (operation : String) (cfg : config)
    (h : db.Get ("newrelicStartTime:" ++ operation) = none) :
    after sprintV operation cfg (db, apm) =
      .ok (db, apm ++ endOfTransaction db.Statement.Context) := by
  simp only [after, createSegment_of_none sprintV db operation cfg h, endOfTransaction]
  cases db.Statement.Context <;> simp

theorem before_of_transaction {α : Type} (db : DB α) (apm : Trace) (operation : String)
    (txn : Transaction) (h : db.Statement.Context = some txn) :
    before operation (db, apm) =
      (db.Set ("newrelicStartTime:" ++ operation) (Setting.startTime ⟨apm.length⟩),
        apm ++ [Event.startSegment txn ⟨apm.length⟩]) := by
  simp only [before, h, StartSegmentNow, name_newrelicStartKey]

theorem before_of_no_transaction {α : Type} (db : DB α) (apm : Trace) (operation : String)
    (h : db.Statement.Context = none) : before operation (db, apm) = (db, apm) := by
  simp only [before, h]

theorem segmentOf_Set {α : Type} (sprintV : α → String) (db : DB α) (k : String)
    (v : Setting α) (operation : String) (cfg : config) (m : SegmentStartTime) :
    segmentOf sprintV (db.Set k v) operation cfg m = segmentOf sprintV db operation cfg m := rfl

theorem Context_Set {α : Type} (db : DB α) (k : String) (v : Setting α) :
    (db.Set k v).Statement.Context = db.Statement.Context := rfl

/-! ## Registration facts -/

theorem registrations_eq (n : NrTracer) : registrations n =
    [ ⟨Chain.Create, Position.Before, "gorm:create",
        "telemetrynr:before_create", Hook.before "INSERT"⟩,
      ⟨Chain.Create, Position.After, "gorm:create",
        "telemetrynr:after_create", Hook.after "INSERT" n.cfg⟩,
      ⟨Chain.Create, Position.Before, "gorm:begin_transaction",
        "telemetrynr:before_transaction_create", Hook.before "TRANSACTION"⟩,
      ⟨Chain.Create, Position.After, "gorm:commit_or_rollback_transaction",
        "telemetrynr:after_transaction_create", Hook.after "TRANSACTION" n.cfg⟩,
      ⟨Chain.Query, Position.Before, "gorm:query",
        "telemetrynr:before_query", Hook.before "SELECT"⟩,
      ⟨Chain.Query, Position.After, "gorm:query",
        "telemetrynr:after_query", Hook.after "SELECT" n.cfg⟩,
      ⟨Chain.Row, Position.Before, "gorm:row",
        "telemetrynr:before_row", Hook.before "ROW"⟩,
      ⟨Chain.Row, Position.After, "gorm:row",
        "telemetrynr:after_row", Hook.after "ROW" n.cfg⟩,
      ⟨Chain.Raw, Position.Before, "gorm:raw",
        "telemetrynr:before_raw", Hook.before "RAW"⟩,
      ⟨Chain.Raw, Position.After, "gorm:raw",
        "telemetrynr:after_raw", Hook.after "RAW" n.cfg⟩,
      ⟨Chain.Update, Position.Before, "gorm:update",
        "telemetrynr:before_update", Hook.before "UPDATE"⟩,
      ⟨Chain.Update, Position.After, "gorm:update",
        "telemetrynr:after_update", Hook.after "UPDATE" n.cfg⟩,
      ⟨Chain.Update, Position.Before, "gorm:begin_transaction",
        "telemetrynr:before_transaction_update", Hook.before "TRANSACTION"⟩,
      ⟨Chain.Update, Position.After, "gorm:commit_or_rollback_transaction",
        "telemetrynr:after_transaction_update", Hook.after "TRANSACTION" n.cfg⟩,
      ⟨Chain.Delete, Position.Before, "gorm:delete",
        "telemetrynr:before_delete", Hook.before "DELETE"⟩,
      ⟨Chain.Delete, Position.After, "gorm:delete",
        "telemetrynr:after_delete", Hook.after "DELETE" n.cfg⟩,
      ⟨Chain.Delete, Position.Before, "gorm:begin_transaction",
        "telemetrynr:before_transaction_update", Hook.before "TRANSACTION"⟩,
      ⟨Chain.Delete, Position.After, "gorm:commit_or_rollback_transaction",
        "telemetrynr:after_transaction_delete", Hook.after "TRANSACTION" n.cfg⟩ ] := by
  simp only [registrations, NrTracer.Initialize, NrTracer.registerCreateTelemetry,
    NrTracer.registerQueryTelemetry, NrTracer.registerRowTelemetry,
    NrTracer.registerRawTelemetry, NrTracer.registerUpdateTelemetry,
    NrTracer.registerDeleteTelemetry, recordAccept, name_registerName, name_callbackName,
    List.nil_append, List.cons_append]
  simp

theorem Initialize_fold {ρ : Type} (Register : Registration → ρ → ρ × Option String)
    (n : NrTracer) (db : ρ) :
    (n.Initialize Register db).1 =
      (registrations n).foldl (fun d r => (Register r d).1) db := by
  rw [registrations_eq]
  simp only [NrTracer.Initialize, NrTracer.registerCreateTelemetry,
    NrTracer.registerQueryTelemetry, NrTracer.registerRowTelemetry,
    NrTracer.registerRawTelemetry, NrTracer.registerUpdateTelemetry,
    NrTracer.registerDeleteTelemetry, name_registerName, name_callbackName, List.foldl]
  simp

/-! ## The ORM's callback chains: placement -/

theorem fold_ormRegister_chain (regs : List Registration) :
    ∀ (reg : Registry) (c : Chain),
      (regs.foldl (fun d r => (ormRegister r d).1) reg) c =
        (regs.filter (fun r => r.chain = c)).foldl (fun l r => (placeOn r l).1) (reg c) := by
  induction regs with
  | nil => intro reg c; rfl
  | cons r rs ih =>
    intro reg c
    simp only [List.foldl_cons]
    rw [ih]
    by_cases h : r.chain = c
    · subst h
      simp [List.filter, ormRegister]
    · have h2 : ¬ c = r.chain := fun e => h e.symm
      simp [List.filter, ormRegister, h, h2]

theorem insertBefore_builtins (anchor : String) (s : Slot) (l : List String)
    (rest : List Slot) (h : anchor ∉ l) :
    insertBefore anchor s (l.map Slot.builtin ++ rest) =
      l.map Slot.builtin ++ insertBefore anchor s rest := by
  induction l with
  | nil => rfl
  | cons x xs ih =>
    have hx : ¬ x = anchor := fun e => h (by simp [e])
    have hxs : anchor ∉ xs := fun e => h (by simp [e])
    simp [insertBefore, Slot.name, hx, ih hxs]

theorem insertAfter_builtins (anchor : String) (s : Slot) (l : List String)
    (rest : List Slot) (h : anchor ∉ l) :
    insertAfter anchor s (l.map Slot.builtin ++ rest) =
      l.map Slot.builtin ++ insertAfter anchor s rest := by
  induction l with
  | nil => rfl
  | cons x xs ih =>
    have hx : ¬ x = anchor := fun e => h (by simp [e])
    have hxs : anchor ∉ xs := fun e => h (by simp [e])
    simp [insertAfter, Slot.name, hx, ih hxs]

theorem any_name_builtins (nm : String) (l : List String) (h : nm ∉ l) :
    (l.map Slot.builtin).any (fun s => s.name == nm) = false := by
  induction l with
  | nil => rfl
  | cons x xs ih =>
    have hx : ¬ x = nm := fun e => h (by simp [e])
    have hxs : nm ∉ xs := fun e => h (by simp [e])
    rw [List.map_cons, List.any_cons, ih hxs]
    simp [Slot.name, hx]

theorem placeOn_Before (r : Registration) (l : List Slot)
    (hany : ∀ s ∈ l, s.name ≠ r.name) (hp : r.position = Position.Before) :
    (placeOn r l).1 = insertBefore r.anchor (Slot.hook r) l := by
  have h : l.any (fun s => s.name == r.name) = false := by
    simpa [List.any_eq_false] using hany
  simp [placeOn, h, hp]

theorem placeOn_After (r : Registration) (l : List Slot)
    (hany : ∀ s ∈ l, s.name ≠ r.name) (hp : r.position = Position.After) :
    (placeOn r l).1 = insertAfter r.anchor (Slot.hook r) l := by
  have h : l.any (fun s => s.name == r.name) = false := by
    simpa [List.any_eq_false] using hany
  simp [placeOn, h, hp]

theorem name_ne_of_not_mem (nm : String) (l : List String) (h : nm ∉ l) :
    ∀ s ∈ l.map Slot.builtin, s.name ≠ nm := by
  intro s hs e
  obtain ⟨x, hx, rfl⟩ := List.mem_map.mp hs
  exact h (by simpa [Slot.name] using e ▸ hx)

/-- The four registrations of a write chain, placed on the ORM's own callbacks. -/
theorem place_write_chain (pre mid1 mid2 post : List String) (bt k cr : String)
    (r1 r2 r3 r4 : Registration)
    (hnd : ([r1.name, r2.name, r3.name, r4.name] ++
      (pre ++ bt :: (mid1 ++ k :: (mid2 ++ cr :: post)))).Nodup)
    (p1 : r1.position = Position.Before) (a1 : r1.anchor = k)
    (p2 : r2.position = Position.After) (a2 : r2.anchor = k)
    (p3 : r3.position = Position.Before) (a3 : r3.anchor = bt)
    (p4 : r4.position = Position.After) (a4 : r4.anchor = cr) :
    [r1, r2, r3, r4].foldl (fun l r => (placeOn r l).1)
        ((pre ++ bt :: (mid1 ++ k :: (mid2 ++ cr :: post))).map Slot.builtin) =
      pre.map Slot.builtin ++ Slot.hook r3 :: Slot.builtin bt ::
        (mid1.map Slot.builtin ++ Slot.hook r1 :: Slot.builtin k :: Slot.hook r2 ::
          (mid2.map Slot.builtin ++ Slot.builtin cr :: Slot.hook r4 :: post.map Slot.builtin)) := by
  simp only [List.nodup_append, List.nodup_cons, List.mem_append, List.mem_cons,
    List.cons_append, List.nil_append, List.not_mem_nil, List.nodup_nil,
    List.disjoint_cons_right, List.disjoint_append_right] at hnd
  simp only [not_or, not_false_eq_true, and_true, true_and] at hnd
  obtain ⟨⟨n12, n13, n14, n1pre, n1bt, n1mid1, n1k, n1mid2, n1cr, n1post⟩,
    ⟨n23, n24, n2pre, n2bt, n2mid1, n2k, n2mid2, n2cr, n2post⟩,
    ⟨n34, n3pre, n3bt, n3mid1, n3k, n3mid2, n3cr, n3post⟩,
    ⟨n4pre, n4bt, n4mid1, n4k, n4mid2, n4cr, n4post⟩,
    -, ⟨⟨-, hbtk, -, hbtcr, -⟩, -, ⟨⟨-, hkcr, -⟩, -, -, hcrmid2, -⟩, hkmid1, -, hcrmid1, -⟩,
    hbtpre, -, hkpre, -, hcrpre, -⟩ := hnd
  have e12 : ¬ r2.name = r1.name := fun e => n12 e.symm
  have e13 : ¬ r3.name = r1.name := fun e => n13 e.symm
  have e14 : ¬ r4.name = r1.name := fun e => n14 e.symm
  have e23 : ¬ r3.name = r2.name := fun e => n23 e.symm
  have e24 : ¬ r4.name = r2.name := fun e => n24 e.symm
  have e34 : ¬ r4.name = r3.name := fun e => n34 e.symm
  have q1 := name_ne_of_not_mem _ _ n1pre
  have q1a := name_ne_of_not_mem _ _ n1mid1
  have q1b := name_ne_of_not_mem _ _ n1mid2
  have q1c := name_ne_of_not_mem _ _ n1post
  have q2 := name_ne_of_not_mem _ _ n2pre
  have q2a := name_ne_of_not_mem _ _ n2mid1
  have q2b := name_ne_of_not_mem _ _ n2mid2
  have q2c := name_ne_of_not_mem _ _ n2post
  have q3 := name_ne_of_not_mem _ _ n3pre
  have q3a := name_ne_of_not_mem _ _ n3mid1
  have q3b := name_ne_of_not_mem _ _ n3mid2
  have q3c := name_ne_of_not_mem _ _ n3post
  have q4 := name_ne_of_not_mem _ _ n4pre
  have q4a := name_ne_of_not_mem _ _ n4mid1
  have q4b := name_ne_of_not_mem _ _ n4mid2
  have q4c := name_ne_of_not_mem _ _ n4post
  simp only [List.foldl_cons, List.foldl_nil, List.map_append, List.map_cons]
  -- r1 goes right before the kind's own callback
  rw [placeOn_Before r1 _ (by
    intro s hs
    simp only [List.mem_append, List.mem_cons] at hs
    rcases hs with hs | rfl | hs | rfl | hs | rfl | hs
    · exact q1 s hs
    · exact fun e => n1bt e.symm
    · exact q1a s hs
    · exact fun e => n1k e.symm
    · exact q1b s hs
    · exact fun e => n1cr e.symm
    · exact q1c s hs) p1, a1]
  rw [insertBefore_builtins k _ pre _ hkpre]
  simp only [insertBefore, Slot.name, hbtk, if_false]
  rw [insertBefore_builtins k _ mid1 _ hkmid1]
  simp only [insertBefore, Slot.name, if_true]
  -- r2 goes right after the kind's own callback
  rw [placeOn_After r2 _ (by
    intro s hs
    simp only [List.mem_append, List.mem_cons] at hs
    rcases hs with hs | rfl | hs | rfl | rfl | hs | rfl | hs
    · exact q2 s hs
    · exact fun e => n2bt e.symm
    · exact q2a s hs
    · exact n12
    · exact fun e => n2k e.symm
    · exact q2b s hs
    · exact fun e => n2cr e.symm
    · exact q2c s hs) p2, a2]
  rw [insertAfter_builtins k _ pre _ hkpre]
  simp only [insertAfter, Slot.name, hbtk, if_false]
  rw [insertAfter_builtins k _ mid1 _ hkmid1]
  simp only [insertAfter, Slot.name, n1k, if_false, if_true]
  -- r3 goes right before the callback that begins the transaction
  rw [placeOn_Before r3 _ (by
    intro s hs
    simp only [List.mem_append, List.mem_cons] at hs
    rcases hs with hs | rfl | hs | rfl | rfl | rfl | hs | rfl | hs
    · exact q3 s hs
    · exact fun e => n3bt e.symm
    · exact q3a s hs
    · exact n13
    · exact fun e => n3k e.symm
    · exact n23
    · exact q3b s hs
    · exact fun e => n3cr e.symm
    · exact q3c s hs) p3, a3]
  rw [insertBefore_builtins bt _ pre _ hbtpre]
  simp only [insertBefore, Slot.name, if_true]
  -- r4 goes right after the callback that commits or rolls back
  rw [placeOn_After r4 _ (by
    intro s hs
    simp only [List.mem_append, List.mem_cons] at hs
    rcases hs with hs | rfl | rfl | hs | rfl | rfl | rfl | hs | rfl | hs
    · exact q4 s hs
    · exact n34
    · exact fun e => n4bt e.symm
    · exact q4a s hs
    · exact n14
    · exact fun e => n4k e.symm
    · exact n24
    · exact q4b s hs
    · exact fun e => n4cr e.symm
    · exact q4c s hs) p4, a4]
  rw [insertAfter_builtins cr _ pre _ hcrpre]
  simp only [insertAfter, Slot.name, n3cr, hbtcr, if_false]
  rw [insertAfter_builtins cr _ mid1 _ hcrmid1]
  simp only [insertAfter, Slot.name, n1cr, hkcr, n2cr, if_false]
  rw [insertAfter_builtins cr _ mid2 _ hcrmid2]
  simp only [insertAfter, Slot.name, if_true]

/-! ## The ORM's callback chains: dispatch -/

theorem firedHooks_builtins (l : List String) (rest : List Slot) :
    firedHooks (l.map Slot.builtin ++ rest) = firedHooks rest := by
  induction l with
  | nil => rfl
  | cons x xs ih => simpa [firedHooks] using ih

theorem runChain_builtins {α : Type} (sprintV : α → String) (effect : String → DB α → DB α)
    (l : List String) (rest : List Slot) :
    ∀ (db : DB α) (apm : Trace),
      runChain sprintV effect (l.map Slot.builtin ++ rest) (db, apm) =
        runChain sprintV effect rest (runStages effect l db, apm) := by
  induction l with
  | nil => intro db apm; rfl
  | cons x xs ih =>
    intro db apm
    simp only [List.map_cons, List.cons_append, runChain, runStages]
    exact ih _ _

theorem runChain_builtins_only {α : Type} (sprintV : α → String)
    (effect : String → DB α → DB α) (l : List String) (db : DB α) (apm : Trace) :
    runChain sprintV effect (l.map Slot.builtin) (db, apm) =
      .ok (runStages effect l db, apm) := by
  have h := runChain_builtins sprintV effect l [] db apm
  simpa [runChain] using h

theorem runStages_Context {α : Type} (effect : String → DB α → DB α)
    (hctx : ∀ s d, (effect s d).Statement.Context = d.Statement.Context) (l : List String) :
    ∀ db : DB α, (runStages effect l db).Statement.Context = db.Statement.Context := by
  induction l with
  | nil => intro db; rfl
  | cons x xs ih => intro db; simp only [runStages]; rw [ih, hctx]

theorem runStages_Get {α : Type} (effect : String → DB α → DB α) (key : String)
    (hget : ∀ s d, (effect s d).Get key = d.Get key) (l : List String) :
    ∀ db : DB α, (runStages effect l db).Get key = db.Get key := by
  induction l with
  | nil => intro db; rfl
  | cons x xs ih => intro db; simp only [runStages]; rw [ih, hget]

/-- The trace of a write chain on which the four hooks sit around the ORM's
own callbacks. -/
theorem runChain_write_chain {α : Type} (sprintV : α → String)
    (effect : String → DB α → DB α) (pre mid1 mid2 post : List String) (bt k cr : String)
    (r1 r2 r3 r4 : Registration) (operation : String) (cfg : config)
    (db : DB α) (apm : Trace) (txn : Transaction)
    (k1 : r1.hook = Hook.before operation) (k2 : r2.hook = Hook.after operation cfg)
    (k3 : r3.hook = Hook.before "TRANSACTION") (k4 : r4.hook = Hook.after "TRANSACTION" cfg)
    (hop : operation ≠ "TRANSACTION")
    (hctx : ∀ s d, (effect s d).Statement.Context = d.Statement.Context)
    (hget : ∀ s d op,
      (effect s d).Get ("newrelicStartTime:" ++ op) = d.Get ("newrelicStartTime:" ++ op))
    (h : db.Statement.Context = some txn) :
    ∃ (final atOp atTxn : DB α),
      runChain sprintV effect
          (pre.map Slot.builtin ++ Slot.hook r3 :: Slot.builtin bt ::
            (mid1.map Slot.builtin ++ Slot.hook r1 :: Slot.builtin k :: Slot.hook r2 ::
              (mid2.map Slot.builtin ++ Slot.builtin cr :: Slot.hook r4 ::
                post.map Slot.builtin))) (db, apm) =
        .ok (final, apm ++
          [Event.startSegment txn ⟨apm.length⟩,
           Event.startSegment txn ⟨apm.length + 1⟩,
           Event.endSegment (segmentOf sprintV atOp operation cfg ⟨apm.length + 1⟩),
           Event.endTransaction txn,
           Event.endSegment (segmentOf sprintV atTxn "TRANSACTION" cfg ⟨apm.length⟩),
           Event.endTransaction txn]) := by
  have hkey : ("newrelicStartTime:" ++ "TRANSACTION" : String) = "newrelicStartTime:TRANSACTION" := by
    decide
  have hne : ("newrelicStartTime:" ++ "TRANSACTION" : String) ≠ "newrelicStartTime:" ++ operation :=
    fun e => hop (startKey_injective e).symm
  -- the statement at each hook
  let d0 := runStages effect pre db
  have c0 : d0.Statement.Context = some txn := by
    rw [runStages_Context effect hctx]; exact h
  let d1 := d0.Set ("newrelicStartTime:" ++ "TRANSACTION") (Setting.startTime ⟨apm.length⟩)
  let d2 := runStages effect (bt :: mid1) d1
  have c2 : d2.Statement.Context = some txn := by
    rw [runStages_Context effect hctx]; exact c0
  have g2 : d2.Get ("newrelicStartTime:" ++ "TRANSACTION") =
      some (Setting.startTime ⟨apm.length⟩) := by
    rw [runStages_Get effect _ (fun s d => hget s d _)]; exact Get_Set_same _ _ _
  let d3 := d2.Set ("newrelicStartTime:" ++ operation) (Setting.startTime ⟨apm.length + 1⟩)
  let d4 := effect k d3
  have c4 : d4.Statement.Context = some txn := by
    rw [hctx]; exact c2
  have g4 : d4.Get ("newrelicStartTime:" ++ operation) =
      some (Setting.startTime ⟨apm.length + 1⟩) := by
    rw [hget]; exact Get_Set_same _ _ _
  have g4t : d4.Get ("newrelicStartTime:" ++ "TRANSACTION") =
      some (Setting.startTime ⟨apm.length⟩) := by
    rw [hget, Get_Set_ne _ _ _ _ hne]; exact g2
  let d5 := effect cr (runStages effect mid2 d4)
  have c5 : d5.Statement.Context = some txn := by
    rw [hctx, runStages_Context effect hctx]; exact c4
  have g5 : d5.Get ("newrelicStartTime:" ++ "TRANSACTION") =
      some (Setting.startTime ⟨apm.length⟩) := by
    rw [hget, runStages_Get effect _ (fun s d => hget s d _)]; exact g4t
  refine ⟨runStages effect post d5, d4, d5, ?_⟩
  rw [runChain_builtins]
  simp only [runChain, k3, Hook.run]
  rw [before_of_transaction _ _ "TRANSACTION" txn c0]
  simp only []
  rw [runChain_builtins]
  simp only [runChain, k1, k2, Hook.run]
  rw [before_of_transaction _ _ operation txn (by
    rw [runStages_Context effect hctx, hctx]; exact c0)]
  simp only [List.length_append, List.length_singleton]
  simp only [d5, d4, d3, d2, d1, d0, runStages] at c4 g4 c5 g5 ⊢
  rw [after_of_marker sprintV _ _ operation cfg ⟨apm.length + 1⟩ g4]
  simp only [c4, endOfTransaction]
  rw [runChain_builtins]
  simp only [runChain, k4, Hook.run]
  rw [after_of_marker sprintV _ _ "TRANSACTION" cfg ⟨apm.length⟩ g5]
  simp only [c5, endOfTransaction]
  rw [runChain_builtins_only]
  simp

/-- A write chain after `Initialize`, from the four registrations made on it. -/
theorem write_chain_of_registrations {α : Type} (sprintV : α → String)
    (effect : String → DB α → DB α) (n : NrTracer) (stages : Chain → List String)
    (c : Chain) (pre mid1 mid2 post : List String) (bt k cr operation : String)
    (r1 r2 r3 r4 : Registration) (db : DB α) (apm : Trace) (txn : Transaction)
    (hfilter : (registrations n).filter (fun r => r.chain = c) = [r1, r2, r3, r4])
    (hnames : [r1.name, r2.name, r3.name, r4.name].Nodup)
    (hreg : ∀ x ∈ [r1.name, r2.name, r3.name, r4.name], x ∈ registeredNames n)
    (p1 : r1.position = Position.Before) (a1 : r1.anchor = k)
    (p2 : r2.position = Position.After) (a2 : r2.anchor = k)
    (p3 : r3.position = Position.Before) (a3 : r3.anchor = bt)
    (p4 : r4.position = Position.After) (a4 : r4.anchor = cr)
    (k1 : r1.hook = Hook.before operation) (k2 : r2.hook = Hook.after operation n.cfg)
    (k3 : r3.hook = Hook.before "TRANSACTION")
    (k4 : r4.hook = Hook.after "TRANSACTION" n.cfg)
    (hop : operation ≠ "TRANSACTION")
    (hstages : stages c = pre ++ bt :: (mid1 ++ k :: (mid2 ++ cr :: post)))
    (hnodup : (stages c).Nodup)
    (hfree : ∀ s ∈ stages c, s ∉ registeredNames n)
    (hctx : ∀ s d, (effect s d).Statement.Context = d.Statement.Context)
    (hget : ∀ s d op,
      (effect s d).Get ("newrelicStartTime:" ++ op) = d.Get ("newrelicStartTime:" ++ op))
    (h : db.Statement.Context = some txn) :
    firedHooks ((n.Initialize ormRegister (builtinChains stages)).1 c) =
      [Hook.before "TRANSACTION", Hook.before operation,
       Hook.after operation n.cfg, Hook.after "TRANSACTION" n.cfg] ∧
    ∃ (final atOp atTxn : DB α),
      runChain sprintV effect ((n.Initialize ormRegister (builtinChains stages)).1 c)
          (db, apm) =
        .ok (final, apm ++
          [Event.startSegment txn ⟨apm.length⟩,
           Event.startSegment txn ⟨apm.length + 1⟩,
           Event.endSegment (segmentOf sprintV atOp operation n.cfg ⟨apm.length + 1⟩),
           Event.endTransaction txn,
           Event.endSegment (segmentOf sprintV atTxn "TRANSACTION" n.cfg ⟨apm.length⟩),
           Event.endTransaction txn]) := by
  have hnd : ([r1.name, r2.name, r3.name, r4.name] ++
      (pre ++ bt :: (mid1 ++ k :: (mid2 ++ cr :: post)))).Nodup := by
    rw [← hstages]
    refine List.nodup_append.mpr ⟨hnames, hnodup, ?_⟩
    intro x hx hs
    exact hfree x hs (hreg x hx)
  have hchain : (n.Initialize ormRegister (builtinChains stages)).1 c =
      pre.map Slot.builtin ++ Slot.hook r3 :: Slot.builtin bt ::
        (mid1.map Slot.builtin ++ Slot.hook r1 :: Slot.builtin k :: Slot.hook r2 ::
          (mid2.map Slot.builtin ++ Slot.builtin cr :: Slot.hook r4 ::
            post.map Slot.builtin)) := by
    rw [Initialize_fold, fold_ormRegister_chain, hfilter]
    simp only [builtinChains, hstages]
    exact place_write_chain pre mid1 mid2 post bt k cr r1 r2 r3 r4 hnd p1 a1 p2 a2 p3 a3 p4 a4
  rw [hchain]
  refine ⟨?_, runChain_write_chain sprintV effect pre mid1 mid2 post bt k cr r1 r2 r3 r4
    operation n.cfg db apm txn k1 k2 k3 k4 hop hctx hget h⟩
  rw [firedHooks_builtins]
  simp only [firedHooks]
  rw [firedHooks_builtins]
  simp only [firedHooks]
  rw [firedHooks_builtins]
  simp only [firedHooks, k1, k2, k3, k4]
  rw [← List.append_nil (List.map Slot.builtin post), firedHooks_builtins]
  rfl

theorem registeredNames_eq (n : NrTracer) : registeredNames n =
    ["telemetrynr:before_create", "telemetrynr:after_create",
     "telemetrynr:before_transaction_create", "telemetrynr:after_transaction_create",
     "telemetrynr:before_query", "telemetrynr:after_query",
     "telemetrynr:before_row", "telemetrynr:after_row",
     "telemetrynr:before_raw", "telemetrynr:after_raw",
     "telemetrynr:before_update", "telemetrynr:after_update",
     "telemetrynr:before_transaction_update", "telemetrynr:after_transaction_update",
     "telemetrynr:before_delete", "telemetrynr:after_delete",
     "telemetrynr:before_transaction_update", "telemetrynr:after_transaction_delete"] := by
  rw [registeredNames, registrations_eq]
  rfl

/-! ## The claims -/

/-- C10: for every tracer configuration and every hook registry, whatever its
`Register` answers, `Initialize` returns the nil error, and the registry it
leaves is the one obtained by attempting each of its eighteen registrations in
order; with a registry that rejects every registration all eighteen attempts
are still made and the nil error is returned. -/
theorem Initialize_attempts_all_and_succeeds {ρ : Type}
    (Register : Registration → ρ → ρ × Option String) (n : NrTracer) (db : ρ) :
    (n.Initialize Register db).2 = none ∧
    (n.Initialize Register db).1 =
      (registrations n).foldl (fun d r => (Register r d).1) db ∧
    (registrations n).length = 18 ∧
    n.Initialize recordReject [] = (registrations n, none) := by
  refine ⟨rfl, Initialize_fold Register n db, ?_, ?_⟩
  · rw [registrations_eq]; rfl
  · apply Prod.ext
    · rw [Initialize_fold recordReject n []]
      rw [registrations_eq]
      simp [List.foldl, recordReject]
    · rfl

/-- C8 (the code departs from it): the names `Initialize` registers are not
pairwise distinct. The before-transaction callback installed on the delete
chain is registered under the update-specific name
`telemetrynr:before_transaction_update`, the very name already used on the
update chain. -/
theorem delete_chain_reuses_update_name (n : NrTracer) :
    ((registrations n).map (fun r => (r.chain, r.hook, r.name)))[12]? =
      some (Chain.Update, Hook.before "TRANSACTION", "telemetrynr:before_transaction_update") ∧
    ((registrations n).map (fun r => (r.chain, r.hook, r.name)))[16]? =
      some (Chain.Delete, Hook.before "TRANSACTION", "telemetrynr:before_transaction_update") ∧
    ¬ (registeredNames n).Nodup := by
  rw [registeredNames, registrations_eq]
  refine ⟨rfl, rfl, ?_⟩
  simp only [List.map]
  decide

/-- C3: for every list of bound parameters, of any type and with any default
rendering, `parseVars` returns a mapping with exactly as many entries as there
are parameters, whose keys are the decimal strings of 1..n, and in which the
key for `i+1` maps to the rendering of the `i`-th parameter (and to nothing when
there is no `i`-th parameter); `[a, b, c]` gives the keys "1", "2", "3". -/
theorem parseVars_positional {α : Type} (sprintV : α → String) (vars : List α) :
    (parseVars sprintV vars).length = vars.length ∧
    (parseVars sprintV vars).map Prod.fst =
      (List.range vars.length).map (fun i => Itoa (i + 1)) ∧
    (∀ i : Nat, (parseVars sprintV vars).lookup (Itoa (i + 1)) = (vars[i]?).map sprintV) ∧
    (∀ a b c : α,
      parseVars sprintV [a, b, c] = [("1", sprintV a), ("2", sprintV b), ("3", sprintV c)]) := by
  refine ⟨?_, ?_, ?_, ?_⟩
  · rw [parseVars_eq, entriesFrom_length]
  · rw [parseVars_eq, entriesFrom_keys, List.range_eq_range']
  · intro i
    rw [parseVars_eq]
    have := entriesFrom_lookup sprintV vars 0 i
    simpa using this
  · intro a b c
    rw [parseVars_eq]
    simp only [entriesFrom]
    have h1 : Itoa 1 = "1" := by decide
    have h2 : Itoa 2 = "2" := by decide
    have h3 : Itoa 3 = "3" := by decide
    simp [h1, h2, h3]

/-- C4: whenever a start marker `m` is stored under the label's key
`newrelicStartTime:<label>`, `createSegment` returns the descriptor with start
marker `m`, the configured product, the label lowercased, the statement's table
name, SQL text and serialized bound values, and the database name and address
given to `NewNrTracer`; the seven labels lowercase to insert, select, row, raw,
update, delete and transaction. -/
theorem createSegment_descriptor {α : Type} (sprintV : α → String) (db : DB α)
    (operation databaseName databaseAddress product : String) (m : SegmentStartTime)
    (h : db.Get ("newrelicStartTime:" ++ operation) = some (Setting.startTime m)) :
    createSegment sprintV db operation (NewNrTracer databaseName databaseAddress product).cfg =
      .ok (some
        { StartTime := m
          Product := product
          Operation := ToLower operation
          Collection := db.Statement.Table
          ParameterizedQuery := db.Statement.SQL
          QueryParameters := parseVars sprintV db.Statement.Vars
          DatabaseName := databaseName
          Host := databaseAddress }) ∧
    ["INSERT", "SELECT", "ROW", "RAW", "UPDATE", "DELETE", "TRANSACTION"].map ToLower =
      ["insert", "select", "row", "raw", "update", "delete", "transaction"] := by
  refine ⟨?_, by decide⟩
  rw [createSegment_of_marker sprintV db operation _ m h]
  rfl

theorem createSegment_descriptor_witness :
    stmtWithMarker.Get ("newrelicStartTime:" ++ "INSERT") = some (Setting.startTime ⟨3⟩) ∧
    createSegment (fun s : String => s) stmtWithMarker "INSERT" testCfg =
      .ok (some
        { StartTime := ⟨3⟩
          Product := "SQLite"
          Operation := "insert"
          Collection := "teste"
          ParameterizedQuery := "INSERT INTO teste (name) VALUES (?)"
          QueryParameters := [("1", "x")]
          DatabaseName := "testdb"
          Host := "local" }) :=
  ⟨by decide,
   (createSegment_descriptor (fun s : String => s) stmtWithMarker "INSERT" "testdb" "local"
      "SQLite" ⟨3⟩ (by decide)).1.trans (congrArg (fun s => Except.ok (some s)) (by decide))⟩

/-- C1 fails as stated: with an APM transaction on the context, the after hook
of the label SELECT (not TRANSACTION) ends the transaction. -/
theorem after_SELECT_ends_transaction :
    ("SELECT" : String) ≠ "TRANSACTION" ∧
    after (fun s : String => s) "SELECT" testCfg (stmtWithTxn, []) =
      .ok (stmtWithTxn, [Event.endTransaction ⟨7⟩]) :=
  ⟨by decide, after_of_none (fun s : String => s) stmtWithTxn [] "SELECT" testCfg (by decide)⟩

/-- C1 (amended): for every operation label, TRANSACTION or not, and every
statement whose context carries an APM transaction, the after hook ends that
transaction as its last call: alone when nothing is stored under the label's
key, right after ending the label's segment when a start marker is stored
there (a stored value of another type makes the hook panic). -/
theorem after_ends_transaction_for_every_label {α : Type} (sprintV : α → String)
    (db : DB α) (apm : Trace) (operation : String) (cfg : config) (txn : Transaction)
    (h : db.Statement.Context = some txn) :
    after sprintV operation cfg (db, apm) =
      match db.Get ("newrelicStartTime:" ++ operation) with
      | none => .ok (db, apm ++ [Event.endTransaction txn])
      | some (Setting.startTime m) =>
        .ok (db, apm ++ [Event.endSegment (segmentOf sprintV db operation cfg m),
          Event.endTransaction txn])
      | some (Setting.other _) =>
        .error assertionPanic := by
  cases hg : db.Get ("newrelicStartTime:" ++ operation) with
  | none => simp [after_of_none sprintV db apm operation cfg hg, h, endOfTransaction]
  | some v =>
    cases v with
    | startTime m => simp [after_of_marker sprintV db apm operation cfg m hg, h, endOfTransaction]
    | other v => simp [after, createSegment, name_newrelicStartKey, hg]

theorem after_ends_transaction_for_every_label_witness :
    stmtWithTxn.Statement.Context = some ⟨7⟩ ∧
    after (fun s : String => s) "ROW" testCfg (stmtWithTxn, []) =
      .ok (stmtWithTxn, [Event.endTransaction ⟨7⟩]) :=
  ⟨rfl, after_ends_transaction_for_every_label (fun s : String => s) stmtWithTxn [] "ROW"
    testCfg ⟨7⟩ rfl⟩

/-- C2 fails as stated: on a create run with an APM transaction on the context,
the hooks `Initialize` installed on the create chain end the transaction
twice, and its first end comes before the TRANSACTION segment is ended. -/
theorem create_ends_transaction_twice :
    (runChain (fun s : String => s) exampleEffect
        ((testTracer.Initialize ormRegister (builtinChains exampleStages)).1 Chain.Create)
        (stmtFresh, [])).toOption.map Prod.snd =
      some
        [Event.startSegment ⟨7⟩ ⟨0⟩,
         Event.startSegment ⟨7⟩ ⟨1⟩,
         Event.endSegment
           { StartTime := ⟨1⟩, Product := "SQLite", Operation := "insert", Collection := "teste",
             ParameterizedQuery := "INSERT INTO teste (name) VALUES (?)",
             QueryParameters := [("1", "x")], DatabaseName := "testdb", Host := "local" },
         Event.endTransaction ⟨7⟩,
         Event.endSegment
           { StartTime := ⟨0⟩, Product := "SQLite", Operation := "transaction",
             Collection := "teste",
             ParameterizedQuery := "INSERT INTO teste (name) VALUES (?)",
             QueryParameters := [("1", "x")], DatabaseName := "testdb", Host := "local" },
         Event.endTransaction ⟨7⟩] ∧
    ((runChain (fun s : String => s) exampleEffect
        ((testTracer.Initialize ormRegister (builtinChains exampleStages)).1 Chain.Create)
        (stmtFresh, [])).toOption.map
          (fun w => w.2.count (Event.endTransaction ⟨7⟩))) = some 2 := by
  constructor <;> decide

/-- C2 (amended): for a create, update or delete run with an APM transaction on
the context, on the chain as `Initialize` leaves it (the ORM's own callbacks
beginning the transaction, then running the kind's callback, then committing
or rolling back), the hooks fire in the order before(TRANSACTION), before(op),
after(op), after(TRANSACTION), and the calls made on the APM client are, in
order: open the TRANSACTION segment, open the op segment, end the op segment,
end the APM transaction, end the TRANSACTION segment, end the APM transaction.
So the TRANSACTION segment is opened before the op segment, and the
transaction's end is called twice: by after(op) once the op segment is ended
and before the TRANSACTION segment is, and by after(TRANSACTION) once both
segments are ended. -/
theorem write_trace {α : Type} (sprintV : α → String) (effect : String → DB α → DB α)
    (n : NrTracer) (stages : Chain → List String) (c : Chain) (kind operation : String)
    (pre mid1 mid2 post : List String) (db : DB α) (apm : Trace) (txn : Transaction)
    (hkind : (c, kind, operation) ∈ writeKinds)
    (hstages : stages c = pre ++ "gorm:begin_transaction" ::
      (mid1 ++ ("gorm:" ++ kind) :: (mid2 ++ "gorm:commit_or_rollback_transaction" :: post)))
    (hnodup : (stages c).Nodup)
    (hfree : ∀ s ∈ stages c, s ∉ registeredNames n)
    (hctx : ∀ s d, (effect s d).Statement.Context = d.Statement.Context)
    (hget : ∀ s d op,
      (effect s d).Get ("newrelicStartTime:" ++ op) = d.Get ("newrelicStartTime:" ++ op))
    (h : db.Statement.Context = some txn) :
    firedHooks ((n.Initialize ormRegister (builtinChains stages)).1 c) =
      [Hook.before "TRANSACTION", Hook.before operation,
       Hook.after operation n.cfg, Hook.after "TRANSACTION" n.cfg] ∧
    ∃ (final atOp atTxn : DB α),
      runChain sprintV effect ((n.Initialize ormRegister (builtinChains stages)).1 c)
          (db, apm) =
        .ok (final, apm ++
          [Event.startSegment txn ⟨apm.length⟩,
           Event.startSegment txn ⟨apm.length + 1⟩,
           Event.endSegment (segmentOf sprintV atOp operation n.cfg ⟨apm.length + 1⟩),
           Event.endTransaction txn,
           Event.endSegment (segmentOf sprintV atTxn "TRANSACTION" n.cfg ⟨apm.length⟩),
           Event.endTransaction txn]) := by
  simp only [writeKinds, List.mem_cons, List.mem_singleton, Prod.mk.injEq, List.not_mem_nil,
    or_false] at hkind
  rcases hkind with ⟨rfl, rfl, rfl⟩ | ⟨rfl, rfl, rfl⟩ | ⟨rfl, rfl, rfl⟩
  · exact write_chain_of_registrations sprintV effect n stages Chain.Create pre mid1 mid2 post
      "gorm:begin_transaction" ("gorm:" ++ "create") "gorm:commit_or_rollback_transaction"
      "INSERT"
      ⟨Chain.Create, Position.Before, "gorm:create",
        "telemetrynr:before_create", Hook.before "INSERT"⟩
      ⟨Chain.Create, Position.After, "gorm:create",
        "telemetrynr:after_create", Hook.after "INSERT" n.cfg⟩
      ⟨Chain.Create, Position.Before, "gorm:begin_transaction",
        "telemetrynr:before_transaction_create", Hook.before "TRANSACTION"⟩
      ⟨Chain.Create, Position.After, "gorm:commit_or_rollback_transaction",
        "telemetrynr:after_transaction_create", Hook.after "TRANSACTION" n.cfg⟩
      db apm txn (by rw [registrations_eq]; rfl) (by dsimp only; decide)
      (by rw [registeredNames_eq]; dsimp only; decide)
      rfl (by decide) rfl (by dsimp only; decide) rfl rfl rfl rfl rfl rfl rfl rfl (by decide)
      hstages hnodup hfree hctx hget h
  · exact write_chain_of_registrations sprintV effect n stages Chain.Update pre mid1 mid2 post
      "gorm:begin_transaction" ("gorm:" ++ "update") "gorm:commit_or_rollback_transaction"
      "UPDATE"
      ⟨Chain.Update, Position.Before, "gorm:update",
        "telemetrynr:before_update", Hook.before "UPDATE"⟩
      ⟨Chain.Update, Position.After, "gorm:update",
        "telemetrynr:after_update", Hook.after "UPDATE" n.cfg⟩
      ⟨Chain.Update, Position.Before, "gorm:begin_transaction",
        "telemetrynr:before_transaction_update", Hook.before "TRANSACTION"⟩
      ⟨Chain.Update, Position.After, "gorm:commit_or_rollback_transaction",
        "telemetrynr:after_transaction_update", Hook.after "TRANSACTION" n.cfg⟩
      db apm txn (by rw [registrations_eq]; rfl) (by dsimp only; decide)
      (by rw [registeredNames_eq]; dsimp only; decide)
      rfl (by decide) rfl (by dsimp only; decide) rfl rfl rfl rfl rfl rfl rfl rfl (by decide)
      hstages hnodup hfree hctx hget h
  · exact write_chain_of_registrations sprintV effect n stages Chain.Delete pre mid1 mid2 post
      "gorm:begin_transaction" ("gorm:" ++ "delete") "gorm:commit_or_rollback_transaction"
      "DELETE"
      ⟨Chain.Delete, Position.Before, "gorm:delete",
        "telemetrynr:before_delete", Hook.before "DELETE"⟩
      ⟨Chain.Delete, Position.After, "gorm:delete",
        "telemetrynr:after_delete", Hook.after "DELETE" n.cfg⟩
      ⟨Chain.Delete, Position.Before, "gorm:begin_transaction",
        "telemetrynr:before_transaction_update", Hook.before "TRANSACTION"⟩
      ⟨Chain.Delete, Position.After, "gorm:commit_or_rollback_transaction",
        "telemetrynr:after_transaction_delete", Hook.after "TRANSACTION" n.cfg⟩
      db apm txn (by rw [registrations_eq]; rfl) (by dsimp only; decide)
      (by rw [registeredNames_eq]; dsimp only; decide)
      rfl (by decide) rfl (by dsimp only; decide) rfl rfl rfl rfl rfl rfl rfl rfl (by decide)
      hstages hnodup hfree hctx hget h

theorem write_trace_witness :
    (Chain.Create, "create", "INSERT") ∈ writeKinds ∧
    (exampleStages Chain.Create).Nodup ∧
    stmtFresh.Statement.Context = some ⟨7⟩ ∧
    firedHooks ((testTracer.Initialize ormRegister (builtinChains exampleStages)).1
        Chain.Create) =
      [Hook.before "TRANSACTION", Hook.before "INSERT",
       Hook.after "INSERT" testTracer.cfg, Hook.after "TRANSACTION" testTracer.cfg] ∧
    ∃ (final atOp atTxn : DB String),
      runChain (fun s : String => s) exampleEffect
          ((testTracer.Initialize ormRegister (builtinChains exampleStages)).1 Chain.Create)
          (stmtFresh, []) =
        .ok (final,
          [Event.startSegment ⟨7⟩ ⟨0⟩,
           Event.startSegment ⟨7⟩ ⟨1⟩,
           Event.endSegment (segmentOf (fun s : String => s) atOp "INSERT" testTracer.cfg ⟨1⟩),
           Event.endTransaction ⟨7⟩,
           Event.endSegment
             (segmentOf (fun s : String => s) atTxn "TRANSACTION" testTracer.cfg ⟨0⟩),
           Event.endTransaction ⟨7⟩]) :=
  ⟨by decide, by decide, rfl,
   write_trace (fun s : String => s) exampleEffect testTracer exampleStages Chain.Create
     "create" "INSERT" [] ["gorm:before_create"] ["gorm:after_create"] [] stmtFresh []
     ⟨7⟩ (by decide) (by decide) (by decide) (by decide)
     (fun s d => by unfold exampleEffect; split <;> rfl)
     (fun s d op => by unfold exampleEffect; split <;> rfl) rfl⟩

/-- C5: for every operation label and every statement whose store holds no
start marker under the key `newrelicStartTime:<label>`, after the before hook
has run a start marker is stored under that key if and only if an APM
transaction is present on the statement's context; with no transaction the
statement and the APM record are unchanged; and the hook raises no error. -/
theorem before_stores_marker_iff_transaction {α : Type} (sprintV : α → String)
    (db : DB α) (apm : Trace) (operation : String)
    (h : ∀ m, db.Get ("newrelicStartTime:" ++ operation) ≠ some (Setting.startTime m)) :
    ((∃ m, (before operation (db, apm)).1.Get ("newrelicStartTime:" ++ operation) =
        some (Setting.startTime m)) ↔ db.Statement.Context ≠ none) ∧
    (db.Statement.Context = none → before operation (db, apm) = (db, apm)) ∧
    (Hook.before operation).run sprintV (db, apm) = .ok (before operation (db, apm)) := by
  refine ⟨?_, fun hc => before_of_no_transaction db apm operation hc, rfl⟩
  cases hc : db.Statement.Context with
  | none =>
    rw [before_of_no_transaction db apm operation hc]
    simp only [ne_eq, not_true_eq_false, iff_false, not_exists]
    exact h
  | some txn =>
    rw [before_of_transaction db apm operation txn hc]
    simp only [ne_eq, reduceCtorEq, not_false_eq_true, iff_true]
    exact ⟨⟨apm.length⟩, Get_Set_same _ _ _⟩

theorem before_stores_marker_iff_transaction_witness :
    (∀ m, stmtNoTxn.Get ("newrelicStartTime:" ++ "SELECT") ≠ some (Setting.startTime m)) ∧
    before "SELECT" (stmtNoTxn, []) = (stmtNoTxn, []) :=
  ⟨fun _ hm => Option.noConfusion
      ((show stmtNoTxn.Get ("newrelicStartTime:" ++ "SELECT") = none by decide).symm.trans hm),
   (before_stores_marker_iff_transaction (fun s : String => s) stmtNoTxn [] "SELECT"
      (fun _ hm => Option.noConfusion
        ((show stmtNoTxn.Get ("newrelicStartTime:" ++ "SELECT") = none by decide).symm.trans
          hm))).2.1 rfl⟩

/-- C6: for every operation label (the six operation kinds among them) and
every statement with no APM transaction on the context and nothing stored under
the label's key, `createSegment` returns nil and the after hook returns without
error, leaving the statement (its store included) and the APM record unchanged:
no segment and no transaction is ended. -/
theorem after_without_before_is_noop {α : Type} (sprintV : α → String) (db : DB α)
    (apm : Trace) (operation : String) (cfg : config)
    (hctx : db.Statement.Context = none)
    (hkey : db.Get ("newrelicStartTime:" ++ operation) = none) :
    createSegment sprintV db operation cfg = .ok none ∧
    after sprintV operation cfg (db, apm) = .ok (db, apm) := by
  refine ⟨createSegment_of_none sprintV db operation cfg hkey, ?_⟩
  rw [after_of_none sprintV db apm operation cfg hkey, hctx]
  simp [endOfTransaction]

theorem after_without_before_is_noop_witness :
    stmtNoTxn.Statement.Context = none ∧
    stmtNoTxn.Get ("newrelicStartTime:" ++ "SELECT") = none ∧
    createSegment (fun s : String => s) stmtNoTxn "SELECT" testCfg = .ok none ∧
    after (fun s : String => s) "SELECT" testCfg (stmtNoTxn, []) = .ok (stmtNoTxn, []) :=
  ⟨rfl, by decide,
   after_without_before_is_noop (fun s : String => s) stmtNoTxn [] "SELECT" testCfg rfl
     (by decide)⟩

/-- C7 fails as stated: with a start marker stored for INSERT, the after hook
leaves the marker in the store, and a second run of the after hook on the same
statement constructs and ends the segment again. -/
theorem after_twice_ends_segment_twice :
    after (fun s : String => s) "INSERT" testCfg (stmtWithMarker, []) =
      .ok (stmtWithMarker,
        [Event.endSegment (segmentOf (fun s : String => s) stmtWithMarker "INSERT" testCfg ⟨3⟩)]) ∧
    stmtWithMarker.Get "newrelicStartTime:INSERT" = some (Setting.startTime ⟨3⟩) ∧
    after (fun s : String => s) "INSERT" testCfg
        (stmtWithMarker,
          [Event.endSegment (segmentOf (fun s : String => s) stmtWithMarker "INSERT" testCfg ⟨3⟩)]) =
      .ok (stmtWithMarker,
        [Event.endSegment (segmentOf (fun s : String => s) stmtWithMarker "INSERT" testCfg ⟨3⟩),
         Event.endSegment (segmentOf (fun s : String => s) stmtWithMarker "INSERT" testCfg ⟨3⟩)]) :=
  ⟨after_of_marker (fun s : String => s) stmtWithMarker [] "INSERT" testCfg ⟨3⟩ (by decide),
   by decide,
   after_of_marker (fun s : String => s) stmtWithMarker _ "INSERT" testCfg ⟨3⟩ (by decide)⟩

/-- C7 (amended): for every operation label and every statement with a start
marker stored under the label's key, the after hook reads the marker and leaves
the statement, its store included, unchanged: the marker is still under the key
once the hook has run, and a second run of the after hook for the same label on
the same statement constructs and ends the same segment again. -/
theorem after_reads_marker_without_removing_it {α : Type} (sprintV : α → String)
    (db : DB α) (apm : Trace) (operation : String) (cfg : config) (m : SegmentStartTime)
    (h : db.Get ("newrelicStartTime:" ++ operation) = some (Setting.startTime m)) :
    after sprintV operation cfg (db, apm) =
      .ok (db, apm ++ [Event.endSegment (segmentOf sprintV db operation cfg m)] ++
        endOfTransaction db.Statement.Context) ∧
    runHooks sprintV [Hook.after operation cfg, Hook.after operation cfg] (db, apm) =
      .ok (db, apm ++ [Event.endSegment (segmentOf sprintV db operation cfg m)] ++
        endOfTransaction db.Statement.Context ++
        [Event.endSegment (segmentOf sprintV db operation cfg m)] ++
        endOfTransaction db.Statement.Context) := by
  refine ⟨after_of_marker sprintV db apm operation cfg m h, ?_⟩
  simp only [runHooks, Hook.run]
  rw [after_of_marker sprintV db apm operation cfg m h]
  simp only []
  rw [after_of_marker sprintV db _ operation cfg m h]

theorem after_reads_marker_without_removing_it_witness :
    stmtWithMarker.Get ("newrelicStartTime:" ++ "INSERT") = some (Setting.startTime ⟨3⟩) ∧
    runHooks (fun s : String => s) [Hook.after "INSERT" testCfg, Hook.after "INSERT" testCfg]
        (stmtWithMarker, []) =
      .ok (stmtWithMarker,
        [Event.endSegment (segmentOf (fun s : String => s) stmtWithMarker "INSERT" testCfg ⟨3⟩),
         Event.endSegment (segmentOf (fun s : String => s) stmtWithMarker "INSERT" testCfg ⟨3⟩)]) :=
  ⟨by decide,
   (after_reads_marker_without_removing_it (fun s : String => s) stmtWithMarker [] "INSERT"
      testCfg ⟨3⟩ (by decide)).2⟩

/-- C9: for any two distinct operation labels the store keys built for them
differ, and running the before hook of the first on any statement does not
change what `createSegment` returns for the second. -/
theorem before_does_not_touch_other_label (op1 op2 : String) (hne : op1 ≠ op2) :
    name newrelicStartKey op1 ≠ name newrelicStartKey op2 ∧
    ∀ (α : Type) (sprintV : α → String) (db : DB α) (apm : Trace) (cfg : config),
      createSegment sprintV (before op1 (db, apm)).1 op2 cfg =
        createSegment sprintV db op2 cfg := by
  have hk : ("newrelicStartTime:" ++ op2 : String) ≠ "newrelicStartTime:" ++ op1 :=
    fun e => hne (startKey_injective e).symm
  refine ⟨?_, ?_⟩
  · rw [name_newrelicStartKey, name_newrelicStartKey]
    exact fun e => hk e.symm
  · intro α sprintV db apm cfg
    cases hc : db.Statement.Context with
    | none => rw [before_of_no_transaction db apm op1 hc]
    | some txn =>
      rw [before_of_transaction db apm op1 txn hc]
      simp only [createSegment, name_newrelicStartKey, Get_Set_ne _ _ _ _ hk]
      rfl

theorem before_does_not_touch_other_label_witness :
    ("TRANSACTION" : String) ≠ "INSERT" ∧
    name newrelicStartKey "TRANSACTION" ≠ name newrelicStartKey "INSERT" ∧
    createSegment (fun s : String => s)
        (before "TRANSACTION" (before "INSERT" (stmtWithTxn, []))).1 "INSERT" testCfg =
      createSegment (fun s : String => s) (before "INSERT" (stmtWithTxn, [])).1 "INSERT"
        testCfg :=
  ⟨by decide,
   (before_does_not_touch_other_label "TRANSACTION" "INSERT" (by decide)).1,
   (before_does_not_touch_other_label "TRANSACTION" "INSERT" (by decide)).2 String
     (fun s : String => s) (before "INSERT" (stmtWithTxn, [])).1
     (before "INSERT" (stmtWithTxn, [])).2 testCfg⟩

end Telemetry
